import Mathlib

set_option autoImplicit false

/-!
Shallow embedding of the `quinine` crate: `MonoBox<T>` (src/box.rs) and
`MonoArc<T>` (src/arc.rs), two atomic write-once cells.

The atomic slot `ptr_or_null : AtomicPtr<T>` of either cell is modelled as a
machine word `Nat`, with `0` standing for the null pointer.  Heap allocation
is made explicit so that leaks, frees and reference counts are visible:

* a `BoxHeap T` maps addresses to uniquely owned values (the allocations
  behind `Box<T>`); a `Box<T>` handle is the address (`Nat`) of its
  allocation, and `Box::into_raw` / `Box::from_raw` are the identity on that
  address;
* an `ArcHeap T` maps addresses to reference-counted values (the allocations
  behind `Arc<T>`), each entry carrying its strong count; `Arc::into_raw` /
  `Arc::from_raw` are the identity on the address, `Arc::new` allocates with
  count 1, `Arc::increment_strong_count` adds 1, and dropping an `Arc`
  subtracts 1, deallocating when the count reaches 0.

Fresh addresses are drawn from a `next` counter, so address `0` is never
allocated as long as `0 < next`.
-/

namespace Quinine

/-- Lookup of the first entry with the given address in an association list
of allocations. -/
def lookupCells {β : Type} : List (Nat × β) → Nat → Option β
  | [], _ => none
  | e :: rest, a => if e.1 = a then some e.2 else lookupCells rest a

/-- Removal of the first entry with the given address: the effect of
deallocating the allocation behind an owning handle. -/
def freeCells {β : Type} : List (Nat × β) → Nat → List (Nat × β)
  | [], _ => []
  | e :: rest, a => if e.1 = a then rest else e :: freeCells rest a

/-- All addresses of the list are nonzero and below the fresh-address
counter. -/
def heapKeysOk {β : Type} (l : List (Nat × β)) (next : Nat) : Prop :=
  ∀ e ∈ l, 0 < e.1 ∧ e.1 < next

/-- No two entries of the list share an address. -/
def keysDistinct {β : Type} (l : List (Nat × β)) : Prop :=
  l.Pairwise (fun e1 e2 => e1.1 ≠ e2.1)

/-- The heap of uniquely owned allocations backing `Box<T>` handles. -/
structure BoxHeap (T : Type) where
  cells : List (Nat × T)
  next : Nat

/-- Value stored at address `a`, if `a` is live. -/
def BoxHeap.lookup {T : Type} (h : BoxHeap T) (a : Nat) : Option T :=
  lookupCells h.cells a

/-- `Box::new(v)`: a fresh allocation holding `v`; returns its address. -/
def BoxHeap.alloc {T : Type} (h : BoxHeap T) (v : T) : Nat × BoxHeap T :=
  (h.next, ⟨(h.next, v) :: h.cells, h.next + 1⟩)

/-- Dropping a `Box<T>` handle: deallocates its allocation. -/
def BoxHeap.free {T : Type} (h : BoxHeap T) (a : Nat) : BoxHeap T :=
  ⟨freeCells h.cells a, h.next⟩

/-- Well-formedness of a box heap: the null address is never allocated,
every live address is below the fresh counter, and addresses are unique. -/
def BoxHeap.wf {T : Type} (h : BoxHeap T) : Prop :=
  0 < h.next ∧ heapKeysOk h.cells h.next ∧ keysDistinct h.cells

/-- The heap of reference-counted allocations backing `Arc<T>` handles:
each entry is `(address, value, strong count)`. -/
structure ArcHeap (T : Type) where
  cells : List (Nat × T × Nat)
  next : Nat

/-- Value and strong count stored at address `a`, if `a` is live. -/
def ArcHeap.lookup {T : Type} (h : ArcHeap T) (a : Nat) : Option (T × Nat) :=
  lookupCells h.cells a

/-- `Arc::new(v)`: a fresh reference-counted allocation holding `v`, with
strong count 1; returns its address. -/
def ArcHeap.alloc {T : Type} (h : ArcHeap T) (v : T) : Nat × ArcHeap T :=
  (h.next, ⟨(h.next, v, 1) :: h.cells, h.next + 1⟩)

/-- `Arc::increment_strong_count(a)`: adds one to the strong count of the
first entry at address `a`. -/
def incrCells {T : Type} : List (Nat × T × Nat) → Nat → List (Nat × T × Nat)
  | [], _ => []
  | e :: rest, a =>
    if e.1 = a then (e.1, e.2.1, e.2.2 + 1) :: rest else e :: incrCells rest a

/-- `Arc::increment_strong_count` on the heap. -/
def ArcHeap.incr {T : Type} (h : ArcHeap T) (a : Nat) : ArcHeap T :=
  ⟨incrCells h.cells a, h.next⟩

/-- Dropping an `Arc<T>` handle: subtracts one from the strong count of the
first entry at address `a`, removing the allocation when the count reaches
zero. -/
def decrCells {T : Type} : List (Nat × T × Nat) → Nat → List (Nat × T × Nat)
  | [], _ => []
  | e :: rest, a =>
    if e.1 = a then
      (if e.2.2 ≤ 1 then rest else (e.1, e.2.1, e.2.2 - 1) :: rest)
    else e :: decrCells rest a

/-- Dropping an `Arc<T>` handle, on the heap. -/
def ArcHeap.decr {T : Type} (h : ArcHeap T) (a : Nat) : ArcHeap T :=
  ⟨decrCells h.cells a, h.next⟩

/-- Well-formedness of an arc heap: the null address is never allocated,
every live address is below the fresh counter, and addresses are unique. -/
def ArcHeap.wf {T : Type} (h : ArcHeap T) : Prop :=
  0 < h.next ∧ heapKeysOk h.cells h.next ∧ keysDistinct h.cells

/-! ### `MonoBox<T>` (src/box.rs)

The cell is a single word `ptr_or_null`; a `Box<T>` handle is the address
of its allocation, so `Box::into_raw` and `Box::from_raw` are the identity
and the cell-level operations below never touch the heap (exactly as in the
source, where they only convert between `Box<T>` and `*mut T`). -/

/-- The `MonoBox<T>` cell: an atomic word holding a pointer or null. -/
structure MonoBox where
  ptr_or_null : Nat
deriving DecidableEq

/-- `MonoBox::new(inner)`: `inner.map(Box::into_raw).unwrap_or(null)`. -/
def MonoBox.new (inner : Option Nat) : MonoBox :=
  ⟨inner.getD 0⟩

/-- `MonoBox::empty()`. -/
def MonoBox.empty : MonoBox :=
  MonoBox.new none

/-- `MonoBox::is_none`: relaxed load, null test. -/
def MonoBox.is_none (self : MonoBox) : Bool :=
  self.ptr_or_null == 0

/-- `MonoBox::is_some`. -/
def MonoBox.is_some (self : MonoBox) : Bool :=
  ! self.is_none

/-- The `Option<Box<T>>` a `MonoBox` logically holds: `None` when the slot
is null, otherwise `Some` of the handle stored in the slot. -/
def MonoBox.asOption (self : MonoBox) : Option Nat :=
  if self.ptr_or_null = 0 then none else some self.ptr_or_null

/-- `MonoBox::swap(value)` (requires `&mut self`): acquire load of the old
pointer, release store of the new one; returns the old contents. -/
def MonoBox.swap (self : MonoBox) (value : Option Nat) : Option Nat × MonoBox :=
  let new := value.getD 0
  let old := self.ptr_or_null
  ((if old = 0 then none else some old), ⟨new⟩)

/-- `MonoBox::store(value)`: `compare_exchange(null, ptr, Release, Relaxed)`;
on success `Ok(())`, on failure `Err(Box::from_raw(ptr))`, the slot left
unchanged. -/
def MonoBox.store (self : MonoBox) (value : Nat) : Except Nat Unit × MonoBox :=
  if self.ptr_or_null = 0 then (Except.ok (), ⟨value⟩)
  else (Except.error value, self)

/-- `MonoBox::store_value(value)`: `self.store(Box::new(value)).is_ok()`.
The `Result` is dropped: a rejected `Err(box)` deallocates its box. -/
def MonoBox.store_value {T : Type} (h : BoxHeap T) (self : MonoBox) (value : T) :
    Bool × MonoBox × BoxHeap T :=
  let (b, h1) := h.alloc value
  match self.store b with
  | (Except.ok _, c1) => (true, c1, h1)
  | (Except.error rb, c1) => (false, c1, h1.free rb)

/-- `MonoBox::as_ref`: acquire load, then `ptr.as_ref()` — `None` when the
slot is null, otherwise the pointee. -/
def MonoBox.as_ref {T : Type} (h : BoxHeap T) (self : MonoBox) : Option T :=
  if self.ptr_or_null = 0 then none else h.lookup self.ptr_or_null

/-- `MonoBox::take()`: `self.swap(None)`. -/
def MonoBox.take (self : MonoBox) : Option Nat × MonoBox :=
  self.swap none

/-- `MonoBox::into_inner()`: consumes the cell, returns `self.take()`. -/
def MonoBox.into_inner (self : MonoBox) : Option Nat :=
  (self.take).1

/-- Dropping an `Option<Box<T>>`: frees the allocation when present. -/
def dropOptBox {T : Type} (h : BoxHeap T) (ob : Option Nat) : BoxHeap T :=
  match ob with
  | none => h
  | some b => h.free b

/-- `impl Drop for MonoBox`: `core::mem::drop(self.take())`. -/
def MonoBox.dropCell {T : Type} (h : BoxHeap T) (self : MonoBox) : BoxHeap T :=
  dropOptBox h (self.take).1

/-! ### `MonoArc<T>` (src/arc.rs)

Same slot encoding; handles are addresses into an `ArcHeap`, whose entries
carry a strong count. -/

/-- The `MonoArc<T>` cell: an atomic word holding a pointer or null. -/
structure MonoArc where
  ptr_or_null : Nat
deriving DecidableEq

/-- `MonoArc::new(inner)`: `inner.map(Arc::into_raw).unwrap_or(null)`. -/
def MonoArc.new (inner : Option Nat) : MonoArc :=
  ⟨inner.getD 0⟩

/-- `MonoArc::empty()`. -/
def MonoArc.empty : MonoArc :=
  MonoArc.new none

/-- `MonoArc::is_none`: relaxed load, null test. -/
def MonoArc.is_none (self : MonoArc) : Bool :=
  self.ptr_or_null == 0

/-- `MonoArc::is_some`. -/
def MonoArc.is_some (self : MonoArc) : Bool :=
  ! self.is_none

/-- The `Option<Arc<T>>` a `MonoArc` logically holds. -/
def MonoArc.asOption (self : MonoArc) : Option Nat :=
  if self.ptr_or_null = 0 then none else some self.ptr_or_null

/-- `MonoArc::swap(value)` (requires `&mut self`): acquire load of the old
pointer, release store of the new one; returns the old contents. -/
def MonoArc.swap (self : MonoArc) (value : Option Nat) : Option Nat × MonoArc :=
  let new := value.getD 0
  let old := self.ptr_or_null
  ((if old = 0 then none else some old), ⟨new⟩)

/-- `MonoArc::store(value)`: `compare_exchange(null, ptr, Release, Relaxed)`;
on success `Ok(())`, on failure `Err(Arc::from_raw(ptr))`, the slot left
unchanged. -/
def MonoArc.store (self : MonoArc) (value : Nat) : Except Nat Unit × MonoArc :=
  if self.ptr_or_null = 0 then (Except.ok (), ⟨value⟩)
  else (Except.error value, self)

/-- `MonoArc::store_value(value)`: `self.store(Arc::new(value)).is_ok()`.
The `Result` is dropped: a rejected `Err(arc)` drops its `Arc`, which
decrements the fresh count of 1 to 0 and deallocates. -/
def MonoArc.store_value {T : Type} (h : ArcHeap T) (self : MonoArc) (value : T) :
    Bool × MonoArc × ArcHeap T :=
  let (a, h1) := h.alloc value
  match self.store a with
  | (Except.ok _, c1) => (true, c1, h1)
  | (Except.error ra, c1) => (false, c1, h1.decr ra)

/-- `MonoArc::as_ref`: acquire load, then `ptr.as_ref()`. -/
def MonoArc.as_ref {T : Type} (h : ArcHeap T) (self : MonoArc) : Option T :=
  if self.ptr_or_null = 0 then none
  else Option.map (fun p => p.1) (h.lookup self.ptr_or_null)

/-- `MonoArc::get()`: acquire load; if null `None`, otherwise
`Arc::increment_strong_count(ptr)` then `Some(Arc::from_raw(ptr))`. -/
def MonoArc.get {T : Type} (h : ArcHeap T) (self : MonoArc) :
    Option Nat × ArcHeap T :=
  if self.ptr_or_null = 0 then (none, h)
  else (some self.ptr_or_null, h.incr self.ptr_or_null)

/-- `MonoArc::take()`: `self.swap(None)`. -/
def MonoArc.take (self : MonoArc) : Option Nat × MonoArc :=
  self.swap none

/-- `MonoArc::into_inner()`: consumes the cell, returns `self.take()`. -/
def MonoArc.into_inner (self : MonoArc) : Option Nat :=
  (self.take).1

/-- Dropping an `Option<Arc<T>>`: decrements the strong count when present
(deallocating at zero). -/
def dropOptArc {T : Type} (h : ArcHeap T) (oa : Option Nat) : ArcHeap T :=
  match oa with
  | none => h
  | some a => h.decr a

/-- `impl Drop for MonoArc`: `core::mem::drop(self.take())`. -/
def MonoArc.dropCell {T : Type} (h : ArcHeap T) (self : MonoArc) : ArcHeap T :=
  dropOptArc h (self.take).1

/-- `impl Clone for MonoArc`: acquire load; if the pointer is non-null,
`Arc::increment_strong_count(ptr)`; returns a new cell built on the same
pointer. -/
def MonoArc.clone {T : Type} (h : ArcHeap T) (self : MonoArc) :
    MonoArc × ArcHeap T :=
  let ptr := self.ptr_or_null
  if ptr = 0 then (⟨ptr⟩, h) else (⟨ptr⟩, h.incr ptr)

/-- `impl From<Box<T>> for Arc<T>` (std): moves the value out of the box
into a fresh reference-counted allocation with count 1 and frees the box's
storage; `none` when the box handle is dangling (impossible for handles
produced by `Box::new`). -/
def boxIntoArc {T : Type} (hb : BoxHeap T) (ha : ArcHeap T) (b : Nat) :
    Option (Nat × BoxHeap T × ArcHeap T) :=
  match hb.lookup b with
  | none => none
  | some v =>
    let (a, ha1) := ha.alloc v
    some (a, hb.free b, ha1)

/-- `impl From<MonoBox<T>> for MonoArc<T>`:
`MonoArc::new(mono.into_inner().map(Into::into))`. -/
def MonoArc.fromMonoBox {T : Type} (hb : BoxHeap T) (ha : ArcHeap T)
    (mono : MonoBox) : Option (MonoArc × BoxHeap T × ArcHeap T) :=
  match mono.into_inner with
  | none => some (MonoArc.new none, hb, ha)
  | some b =>
    match boxIntoArc hb ha b with
    | none => none
    | some (a, hb1, ha1) => some (MonoArc.new (some a), hb1, ha1)

/-! ### Sequences of shared-reference operations

The operations reachable through a shared reference `&self` (everything
except `swap`, `take`, `into_inner` and `drop`, which need `&mut self` or
ownership). -/

/-- A shared-reference operation on a `MonoBox`. -/
inductive BoxOp (T : Type) where
  | storeOp (b : Nat)
  | storeValueOp (v : T)
  | asRefOp
  | isNoneOp
  | isSomeOp

/-- Effect of one shared-reference `MonoBox` operation on the heap and the
cell; `as_ref`, `is_none` and `is_some` only read. -/
def MonoBox.stepOp {T : Type} (h : BoxHeap T) (self : MonoBox) :
    BoxOp T → BoxHeap T × MonoBox
  | BoxOp.storeOp b => (h, (self.store b).2)
  | BoxOp.storeValueOp v =>
    let r := MonoBox.store_value h self v
    (r.2.2, r.2.1)
  | BoxOp.asRefOp => (h, self)
  | BoxOp.isNoneOp => (h, self)
  | BoxOp.isSomeOp => (h, self)

/-- Running a sequence of shared-reference `MonoBox` operations. -/
def MonoBox.runOps {T : Type} (h : BoxHeap T) (self : MonoBox) :
    List (BoxOp T) → BoxHeap T × MonoBox
  | [] => (h, self)
  | op :: rest =>
    let s := MonoBox.stepOp h self op
    MonoBox.runOps s.1 s.2 rest

/-- A shared-reference operation on a `MonoArc`. -/
inductive ArcOp (T : Type) where
  | storeOp (a : Nat)
  | storeValueOp (v : T)
  | asRefOp
  | getOp
  | isNoneOp
  | isSomeOp
  | cloneOp

/-- Effect of one shared-reference `MonoArc` operation on the heap and the
cell; `get` and `clone` touch only reference counts, `as_ref`, `is_none`
and `is_some` only read. -/
def MonoArc.stepOp {T : Type} (h : ArcHeap T) (self : MonoArc) :
    ArcOp T → ArcHeap T × MonoArc
  | ArcOp.storeOp a => (h, (self.store a).2)
  | ArcOp.storeValueOp v =>
    let r := MonoArc.store_value h self v
    (r.2.2, r.2.1)
  | ArcOp.asRefOp => (h, self)
  | ArcOp.getOp => ((MonoArc.get h self).2, self)
  | ArcOp.isNoneOp => (h, self)
  | ArcOp.isSomeOp => (h, self)
  | ArcOp.cloneOp => ((MonoArc.clone h self).2, self)

/-- Running a sequence of shared-reference `MonoArc` operations. -/
def MonoArc.runOps {T : Type} (h : ArcHeap T) (self : MonoArc) :
    List (ArcOp T) → ArcHeap T × MonoArc
  | [] => (h, self)
  | op :: rest =>
    let s := MonoArc.stepOp h self op
    MonoArc.runOps s.1 s.2 rest

/-! ### Atomic accesses to the slot

Every method of both cells is straight-line code; the accesses it performs
on the atomic `ptr_or_null` slot, with their memory orderings, are
transcribed below, one list per method, in source order. -/

/-- A memory ordering of the source's atomic accesses. -/
inductive MemOrder where
  | relaxed
  | acquire
  | release
deriving DecidableEq

/-- One atomic access to the slot. -/
inductive AtomicAccess where
  | loadOp (ord : MemOrder)
  | storeOp (ord : MemOrder)
  | casOp (success : MemOrder) (failure : MemOrder)
deriving DecidableEq

/-- `MonoBox::new` / `MonoArc::new`: `AtomicPtr::new` is plain
initialization, no atomic access. -/
def newAtomics : List AtomicAccess := []

/-- `is_none` (both cells): one relaxed load. -/
def is_noneAtomics : List AtomicAccess := [AtomicAccess.loadOp MemOrder.relaxed]

/-- `is_some` (both cells): delegates to `is_none`. -/
def is_someAtomics : List AtomicAccess := is_noneAtomics

/-- `swap` (both cells): one acquire load then one release store. -/
def swapAtomics : List AtomicAccess :=
  [AtomicAccess.loadOp MemOrder.acquire, AtomicAccess.storeOp MemOrder.release]

/-- `store` (both cells): one compare-exchange, release on success,
relaxed on failure. -/
def storeAtomics : List AtomicAccess :=
  [AtomicAccess.casOp MemOrder.release MemOrder.relaxed]

/-- `store_value` (both cells): allocation plus `store`. -/
def store_valueAtomics : List AtomicAccess := storeAtomics

/-- `as_ref` (both cells): one acquire load. -/
def as_refAtomics : List AtomicAccess := [AtomicAccess.loadOp MemOrder.acquire]

/-- `MonoBox::as_mut`: one acquire load. -/
def as_mutAtomics : List AtomicAccess := [AtomicAccess.loadOp MemOrder.acquire]

/-- `take` (both cells): delegates to `swap(None)`. -/
def takeAtomics : List AtomicAccess := swapAtomics

/-- `into_inner` (both cells): delegates to `take`. -/
def into_innerAtomics : List AtomicAccess := takeAtomics

/-- `drop` (both cells): drops `self.take()`. -/
def dropAtomics : List AtomicAccess := takeAtomics

/-- `MonoArc::get`: one acquire load (the reference-count increment is on
the allocation, not the slot). -/
def getAtomics : List AtomicAccess := [AtomicAccess.loadOp MemOrder.acquire]

/-- `MonoArc::clone`: one acquire load. -/
def cloneAtomics : List AtomicAccess := [AtomicAccess.loadOp MemOrder.acquire]

/-! ### Round-trip scenarios -/

/-- `MonoBox::new(Some(Box::new(v)))` followed by `into_inner()`: the
returned handle and the heap after the construction. -/
def MonoBox.roundTrip {T : Type} (h : BoxHeap T) (v : T) :
    Option Nat × BoxHeap T :=
  let r := h.alloc v
  ((MonoBox.new (some r.1)).into_inner, r.2)

/-- `MonoArc::new(Some(Arc::new(v)))` followed by `into_inner()`: the
returned handle and the heap after the construction. -/
def MonoArc.roundTrip {T : Type} (h : ArcHeap T) (v : T) :
    Option Nat × ArcHeap T :=
  let r := h.alloc v
  ((MonoArc.new (some r.1)).into_inner, r.2)

/-! ### Basic heap lemmas -/

theorem lookupCells_eq_none {β : Type} (l : List (Nat × β)) (a : Nat)
    (h : ∀ e ∈ l, e.1 ≠ a) : lookupCells l a = none := by
  induction l with
  | nil => rfl
  | cons e rest ih =>
    simp only [lookupCells]
    rw [if_neg (h e (List.mem_cons_self e rest))]
    exact ih fun e' he' => h e' (List.mem_cons_of_mem e he')

theorem lookupCells_freeCells_ne {β : Type} (l : List (Nat × β)) (a b : Nat)
    (hne : b ≠ a) : lookupCells (freeCells l a) b = lookupCells l b := by
  induction l with
  | nil => rfl
  | cons e rest ih =>
    simp only [freeCells]
    by_cases he : e.1 = a
    · rw [if_pos he]
      simp only [lookupCells]
      rw [if_neg (by rw [he]; exact fun h => hne h.symm)]
    · rw [if_neg he]
      simp only [lookupCells]
      by_cases hb : e.1 = b
      · rw [if_pos hb, if_pos hb]
      · rw [if_neg hb, if_neg hb, ih]

theorem lookupCells_freeCells_self {β : Type} (l : List (Nat × β)) (a : Nat)
    (hd : keysDistinct l) (v : β) (hv : lookupCells l a = some v) :
    lookupCells (freeCells l a) a = none := by
  induction l with
  | nil => simp [lookupCells] at hv
  | cons e rest ih =>
    simp only [freeCells]
    rcases List.pairwise_cons.mp hd with ⟨hhead, hrest⟩
    by_cases he : e.1 = a
    · rw [if_pos he]
      exact lookupCells_eq_none rest a fun e' he' heq => hhead e' he' (he.trans heq.symm)
    · rw [if_neg he]
      simp only [lookupCells] at hv ⊢
      rw [if_neg he] at hv ⊢
      exact ih hrest hv

theorem freeCells_length {β : Type} (l : List (Nat × β)) (a : Nat)
    (v : β) (hv : lookupCells l a = some v) :
    (freeCells l a).length + 1 = l.length := by
  induction l with
  | nil => simp [lookupCells] at hv
  | cons e rest ih =>
    simp only [freeCells]
    by_cases he : e.1 = a
    · rw [if_pos he]; simp
    · rw [if_neg he]
      simp only [lookupCells] at hv
      rw [if_neg he] at hv
      simp only [List.length_cons]
      rw [← ih hv]

theorem lookupCells_incrCells_self {T : Type} (l : List (Nat × T × Nat))
    (a : Nat) :
    lookupCells (incrCells l a) a
      = Option.map (fun p => (p.1, p.2 + 1)) (lookupCells l a) := by
  induction l with
  | nil => rfl
  | cons e rest ih =>
    simp only [incrCells]
    by_cases he : e.1 = a
    · rw [if_pos he]
      simp only [lookupCells]
      rw [if_pos he, if_pos he]
      rfl
    · rw [if_neg he]
      simp only [lookupCells]
      rw [if_neg he, if_neg he, ih]

theorem lookupCells_incrCells_ne {T : Type} (l : List (Nat × T × Nat))
    (a b : Nat) (hne : b ≠ a) :
    lookupCells (incrCells l a) b = lookupCells l b := by
  induction l with
  | nil => rfl
  | cons e rest ih =>
    simp only [incrCells]
    by_cases he : e.1 = a
    · rw [if_pos he]
      simp only [lookupCells]
      rw [if_neg (by rw [he]; exact fun h => hne h.symm),
          if_neg (by rw [he]; exact fun h => hne h.symm)]
    · rw [if_neg he]
      simp only [lookupCells]
      by_cases hb : e.1 = b
      · rw [if_pos hb, if_pos hb]
      · rw [if_neg hb, if_neg hb, ih]

theorem lookupCells_decrCells_ge2 {T : Type} (l : List (Nat × T × Nat))
    (a : Nat) (v : T) (k : Nat) (hk : 2 ≤ k)
    (hv : lookupCells l a = some (v, k)) :
    lookupCells (decrCells l a) a = some (v, k - 1) := by
  induction l with
  | nil => simp [lookupCells] at hv
  | cons e rest ih =>
    simp only [decrCells]
    by_cases he : e.1 = a
    · rw [if_pos he]
      simp only [lookupCells] at hv
      rw [if_pos he] at hv
      have hev : e.2 = (v, k) := Option.some_injective _ hv
      rw [if_neg (by rw [hev]; omega)]
      simp only [lookupCells]
      rw [if_pos he, hev]
    · rw [if_neg he]
      simp only [lookupCells] at hv ⊢
      rw [if_neg he] at hv ⊢
      exact ih hv

theorem lookupCells_decrCells_one {T : Type} (l : List (Nat × T × Nat))
    (a : Nat) (hd : keysDistinct l) (v : T)
    (hv : lookupCells l a = some (v, 1)) :
    lookupCells (decrCells l a) a = none := by
  induction l with
  | nil => simp [lookupCells] at hv
  | cons e rest ih =>
    simp only [decrCells]
    rcases List.pairwise_cons.mp hd with ⟨hhead, hrest⟩
    by_cases he : e.1 = a
    · rw [if_pos he]
      simp only [lookupCells] at hv
      rw [if_pos he] at hv
      have hev : e.2 = (v, 1) := Option.some_injective _ hv
      rw [if_pos (by rw [hev])]
      exact lookupCells_eq_none rest a fun e' he' heq => hhead e' he' (he.trans heq.symm)
    · rw [if_neg he]
      simp only [lookupCells] at hv ⊢
      rw [if_neg he] at hv ⊢
      exact ih hrest hv

theorem lookupCells_decrCells_ne {T : Type} (l : List (Nat × T × Nat))
    (a b : Nat) (hne : b ≠ a) :
    lookupCells (decrCells l a) b = lookupCells l b := by
  induction l with
  | nil => rfl
  | cons e rest ih =>
    simp only [decrCells]
    by_cases he : e.1 = a
    · rw [if_pos he]
      by_cases hc : e.2.2 ≤ 1
      · rw [if_pos hc]
        simp only [lookupCells]
        rw [if_neg (by rw [he]; exact fun h => hne h.symm)]
      · rw [if_neg hc]
        simp only [lookupCells]
        rw [if_neg (by rw [he]; exact fun h => hne h.symm),
            if_neg (by rw [he]; exact fun h => hne h.symm)]
    · rw [if_neg he]
      simp only [lookupCells]
      by_cases hb : e.1 = b
      · rw [if_pos hb, if_pos hb]
      · rw [if_neg hb, if_neg hb, ih]

theorem decrCells_length_ge2 {T : Type} (l : List (Nat × T × Nat)) (a : Nat)
    (v : T) (k : Nat) (hk : 2 ≤ k) (hv : lookupCells l a = some (v, k)) :
    (decrCells l a).length = l.length := by
  induction l with
  | nil => simp [lookupCells] at hv
  | cons e rest ih =>
    simp only [decrCells]
    by_cases he : e.1 = a
    · rw [if_pos he]
      simp only [lookupCells] at hv
      rw [if_pos he] at hv
      have hev : e.2 = (v, k) := Option.some_injective _ hv
      rw [if_neg (by rw [hev]; omega)]
      simp
    · rw [if_neg he]
      simp only [lookupCells] at hv
      rw [if_neg he] at hv
      simp only [List.length_cons]
      rw [ih hv]

theorem decrCells_length_one {T : Type} (l : List (Nat × T × Nat)) (a : Nat)
    (v : T) (hv : lookupCells l a = some (v, 1)) :
    (decrCells l a).length + 1 = l.length := by
  induction l with
  | nil => simp [lookupCells] at hv
  | cons e rest ih =>
    simp only [decrCells]
    by_cases he : e.1 = a
    · rw [if_pos he]
      simp only [lookupCells] at hv
      rw [if_pos he] at hv
      have hev : e.2 = (v, 1) := Option.some_injective _ hv
      rw [if_pos (by rw [hev])]
      simp
    · rw [if_neg he]
      simp only [lookupCells] at hv
      rw [if_neg he] at hv
      simp only [List.length_cons]
      rw [← ih hv]

theorem lookupCells_fresh {β : Type} (l : List (Nat × β)) (n : Nat)
    (h : ∀ e ∈ l, e.1 < n) : lookupCells l n = none :=
  lookupCells_eq_none l n fun e he => Nat.ne_of_lt (h e he)

/-! ### Preservation of a populated slot by shared-reference operations -/

theorem boxStepOp_preserves {T : Type} (h : BoxHeap T) (c : MonoBox)
    (op : BoxOp T) (hc : c.ptr_or_null ≠ 0) :
    (MonoBox.stepOp h c op).2 = c := by
  cases op with
  | storeOp b => simp [MonoBox.stepOp, MonoBox.store, hc]
  | storeValueOp v =>
    simp [MonoBox.stepOp, MonoBox.store_value, MonoBox.store, BoxHeap.alloc, hc]
  | asRefOp => rfl
  | isNoneOp => rfl
  | isSomeOp => rfl

theorem boxRunOps_preserves {T : Type} (h : BoxHeap T) (c : MonoBox)
    (ops : List (BoxOp T)) (hc : c.ptr_or_null ≠ 0) :
    (MonoBox.runOps h c ops).2 = c := by
  induction ops generalizing h c with
  | nil => rfl
  | cons op rest ih =>
    simp only [MonoBox.runOps]
    rw [boxStepOp_preserves h c op hc]
    exact ih _ c hc

theorem arcStepOp_preserves {T : Type} (h : ArcHeap T) (c : MonoArc)
    (op : ArcOp T) (hc : c.ptr_or_null ≠ 0) :
    (MonoArc.stepOp h c op).2 = c := by
  cases op with
  | storeOp a => simp [MonoArc.stepOp, MonoArc.store, hc]
  | storeValueOp v =>
    simp [MonoArc.stepOp, MonoArc.store_value, MonoArc.store, ArcHeap.alloc, hc]
  | asRefOp => rfl
  | getOp => rfl
  | isNoneOp => rfl
  | isSomeOp => rfl
  | cloneOp => rfl

theorem arcRunOps_preserves {T : Type} (h : ArcHeap T) (c : MonoArc)
    (ops : List (ArcOp T)) (hc : c.ptr_or_null ≠ 0) :
    (MonoArc.runOps h c ops).2 = c := by
  induction ops generalizing h c with
  | nil => rfl
  | cons op rest ih =>
    simp only [MonoArc.runOps]
    rw [arcStepOp_preserves h c op hc]
    exact ih _ c hc

/-! ### Claim theorems -/

/-- C1: for both `MonoBox` and `MonoArc`, `store(v)` returns `Ok(())` iff
the cell held `None` at the moment of the attempt; otherwise it returns
`Err` carrying back exactly the value `v` that was passed in, and the slot
— hence the value already stored — is left unchanged (the rejected
allocation travels back whole inside the `Err`, so nothing is leaked or
silently dropped). -/
theorem store_ok_iff_empty :
    (∀ (c : MonoBox) (v : Nat),
      ((c.store v).1 = Except.ok () ↔ c.asOption = none)
      ∧ (c.asOption ≠ none →
          (c.store v).1 = Except.error v ∧ (c.store v).2 = c)
      ∧ (c.asOption = none → (c.store v).2 = ⟨v⟩))
    ∧ (∀ (c : MonoArc) (v : Nat),
      ((c.store v).1 = Except.ok () ↔ c.asOption = none)
      ∧ (c.asOption ≠ none →
          (c.store v).1 = Except.error v ∧ (c.store v).2 = c)
      ∧ (c.asOption = none → (c.store v).2 = ⟨v⟩)) := by
  constructor <;> intro c v <;> by_cases hp : c.ptr_or_null = 0 <;>
    simp [MonoBox.store, MonoArc.store, MonoBox.asOption, MonoArc.asOption, hp]

/-- Witness for C1: a populated `MonoBox` rejects and returns the value, a
populated `MonoArc` likewise. -/
theorem store_ok_iff_empty_witness :
    ((MonoBox.mk 5).asOption ≠ none
      ∧ ((MonoBox.mk 5).store 7).1 = Except.error 7
      ∧ ((MonoBox.mk 5).store 7).2 = MonoBox.mk 5)
    ∧ ((MonoArc.mk 3).asOption ≠ none
      ∧ ((MonoArc.mk 3).store 8).1 = Except.error 8
      ∧ ((MonoArc.mk 3).store 8).2 = MonoArc.mk 3) :=
  ⟨⟨by decide, (store_ok_iff_empty.1 ⟨5⟩ 7).2.1 (by decide)⟩,
   ⟨by decide, (store_ok_iff_empty.2 ⟨3⟩ 8).2.1 (by decide)⟩⟩

/-- C3: for both cells, `swap(n)` returns exactly the prior contents and
leaves the cell holding `n`; `take()` is `swap(None)`, so `take()` on an
empty cell returns `None` and leaves the cell empty. -/
theorem swap_take_spec :
    (∀ (c : MonoBox) (n : Option Nat), n ≠ some 0 →
      (c.swap n).1 = c.asOption ∧ (c.swap n).2.asOption = n)
    ∧ (∀ c : MonoBox, c.take = c.swap none)
    ∧ (∀ c : MonoBox, c.asOption = none →
        (c.take).1 = none ∧ (c.take).2 = MonoBox.empty)
    ∧ (∀ (c : MonoArc) (n : Option Nat), n ≠ some 0 →
      (c.swap n).1 = c.asOption ∧ (c.swap n).2.asOption = n)
    ∧ (∀ c : MonoArc, c.take = c.swap none)
    ∧ (∀ c : MonoArc, c.asOption = none →
        (c.take).1 = none ∧ (c.take).2 = MonoArc.empty) := by
  refine ⟨?_, fun c => rfl, ?_, ?_, fun c => rfl, ?_⟩
  · intro c n hn
    cases n with
    | none => simp [MonoBox.swap, MonoBox.asOption]
    | some a =>
      have ha : a ≠ 0 := fun h => hn (by rw [h])
      simp [MonoBox.swap, MonoBox.asOption, ha]
  · intro c hc
    by_cases hp : c.ptr_or_null = 0
    · exact ⟨by simp [MonoBox.take, MonoBox.swap, hp], by
        simp [MonoBox.take, MonoBox.swap, MonoBox.empty, MonoBox.new]⟩
    · simp [MonoBox.asOption, hp] at hc
  · intro c n hn
    cases n with
    | none => simp [MonoArc.swap, MonoArc.asOption]
    | some a =>
      have ha : a ≠ 0 := fun h => hn (by rw [h])
      simp [MonoArc.swap, MonoArc.asOption, ha]
  · intro c hc
    by_cases hp : c.ptr_or_null = 0
    · exact ⟨by simp [MonoArc.take, MonoArc.swap, hp], by
        simp [MonoArc.take, MonoArc.swap, MonoArc.empty, MonoArc.new]⟩
    · simp [MonoArc.asOption, hp] at hc

/-- Witness for C3: a populated `MonoBox` swapped with a fresh handle, and
`take()` on empty cells of both kinds. -/
theorem swap_take_spec_witness :
    ((some 9 : Option Nat) ≠ some 0
      ∧ ((MonoBox.mk 4).swap (some 9)).1 = (MonoBox.mk 4).asOption
      ∧ ((MonoBox.mk 4).swap (some 9)).2.asOption = some 9)
    ∧ (MonoBox.empty.asOption = none
      ∧ (MonoBox.empty.take).1 = none ∧ (MonoBox.empty.take).2 = MonoBox.empty)
    ∧ (MonoArc.empty.asOption = none
      ∧ (MonoArc.empty.take).1 = none ∧ (MonoArc.empty.take).2 = MonoArc.empty) :=
  ⟨⟨by decide, swap_take_spec.1 ⟨4⟩ (some 9) (by decide)⟩,
   ⟨by decide, swap_take_spec.2.2.1 MonoBox.empty (by decide)⟩,
   ⟨by decide, swap_take_spec.2.2.2.2.2 MonoArc.empty (by decide)⟩⟩

/-- C5: constructing a cell holding `v` (`MonoBox::new(Some(Box::new(v)))`
or `MonoArc::new(Some(Arc::new(v)))`) and then calling `into_inner()`
returns `Some` of a handle whose allocation holds exactly `v` (with strong
count 1 in the `Arc` case); on an empty cell `into_inner()` returns
`None`. -/
theorem roundTrip_spec :
    (∀ (T : Type) (h : BoxHeap T) (v : T), 0 < h.next →
      (MonoBox.roundTrip h v).1 = some h.next
      ∧ (MonoBox.roundTrip h v).2.lookup h.next = some v)
    ∧ MonoBox.empty.into_inner = none
    ∧ (∀ (T : Type) (h : ArcHeap T) (v : T), 0 < h.next →
      (MonoArc.roundTrip h v).1 = some h.next
      ∧ (MonoArc.roundTrip h v).2.lookup h.next = some (v, 1))
    ∧ MonoArc.empty.into_inner = none := by
  refine ⟨?_, rfl, ?_, rfl⟩
  · intro T h v hn
    have hne : h.next ≠ 0 := Nat.pos_iff_ne_zero.mp hn
    constructor
    · simp [MonoBox.roundTrip, BoxHeap.alloc, MonoBox.new, MonoBox.into_inner,
        MonoBox.take, MonoBox.swap, hne]
    · simp [MonoBox.roundTrip, BoxHeap.alloc, BoxHeap.lookup, lookupCells]
  · intro T h v hn
    have hne : h.next ≠ 0 := Nat.pos_iff_ne_zero.mp hn
    constructor
    · simp [MonoArc.roundTrip, ArcHeap.alloc, MonoArc.new, MonoArc.into_inner,
        MonoArc.take, MonoArc.swap, hne]
    · simp [MonoArc.roundTrip, ArcHeap.alloc, ArcHeap.lookup, lookupCells]

/-- Witness for C5: round-trips of `5` through a `MonoBox` and of `7`
through a `MonoArc`, on initially empty heaps. -/
theorem roundTrip_spec_witness :
    (0 < (1 : Nat)
      ∧ (MonoBox.roundTrip (⟨[], 1⟩ : BoxHeap Nat) 5).1 = some 1
      ∧ (MonoBox.roundTrip (⟨[], 1⟩ : BoxHeap Nat) 5).2.lookup 1 = some 5)
    ∧ (0 < (1 : Nat)
      ∧ (MonoArc.roundTrip (⟨[], 1⟩ : ArcHeap Nat) 7).1 = some 1
      ∧ (MonoArc.roundTrip (⟨[], 1⟩ : ArcHeap Nat) 7).2.lookup 1 = some (7, 1)) :=
  ⟨⟨by decide, roundTrip_spec.1 Nat ⟨[], 1⟩ 5 (by decide)⟩,
   ⟨by decide, roundTrip_spec.2.2.1 Nat ⟨[], 1⟩ 7 (by decide)⟩⟩

/-- C2: for every sequence of shared-reference operations (`store`,
`store_value`, `as_ref`, `get`, `is_none`, `is_some`, `clone` — everything
except the exclusive-access `swap`/`take`/`into_inner`/`drop`), once the
slot holds a non-null value it holds that same non-null value forever
after: no such operation ever transitions the slot back to null. -/
theorem shared_ops_monotone :
    (∀ (T : Type) (h : ArcHeap T) (c : MonoArc) (ops : List (ArcOp T)),
      c.ptr_or_null ≠ 0 →
      (MonoArc.runOps h c ops).2.ptr_or_null ≠ 0
      ∧ (MonoArc.runOps h c ops).2 = c)
    ∧ (∀ (T : Type) (h : BoxHeap T) (c : MonoBox) (ops : List (BoxOp T)),
      c.ptr_or_null ≠ 0 →
      (MonoBox.runOps h c ops).2.ptr_or_null ≠ 0
      ∧ (MonoBox.runOps h c ops).2 = c) := by
  constructor
  · intro T h c ops hc
    have hr := arcRunOps_preserves h c ops hc
    exact ⟨by rw [hr]; exact hc, hr⟩
  · intro T h c ops hc
    have hr := boxRunOps_preserves h c ops hc
    exact ⟨by rw [hr]; exact hc, hr⟩

/-- Witness for C2: a populated cell of each kind stays populated across a
sequence exercising every shared-reference operation. -/
theorem shared_ops_monotone_witness :
    ((MonoArc.mk 1).ptr_or_null ≠ 0
      ∧ (MonoArc.runOps (⟨[(1, 5, 1)], 2⟩ : ArcHeap Nat) ⟨1⟩
          [ArcOp.getOp, ArcOp.storeOp 2, ArcOp.storeValueOp 9, ArcOp.cloneOp,
           ArcOp.asRefOp, ArcOp.isNoneOp, ArcOp.isSomeOp]).2.ptr_or_null ≠ 0
      ∧ (MonoArc.runOps (⟨[(1, 5, 1)], 2⟩ : ArcHeap Nat) ⟨1⟩
          [ArcOp.getOp, ArcOp.storeOp 2, ArcOp.storeValueOp 9, ArcOp.cloneOp,
           ArcOp.asRefOp, ArcOp.isNoneOp, ArcOp.isSomeOp]).2 = ⟨1⟩)
    ∧ ((MonoBox.mk 1).ptr_or_null ≠ 0
      ∧ (MonoBox.runOps (⟨[(1, 5)], 2⟩ : BoxHeap Nat) ⟨1⟩
          [BoxOp.storeOp 2, BoxOp.storeValueOp 9, BoxOp.asRefOp,
           BoxOp.isNoneOp, BoxOp.isSomeOp]).2.ptr_or_null ≠ 0
      ∧ (MonoBox.runOps (⟨[(1, 5)], 2⟩ : BoxHeap Nat) ⟨1⟩
          [BoxOp.storeOp 2, BoxOp.storeValueOp 9, BoxOp.asRefOp,
           BoxOp.isNoneOp, BoxOp.isSomeOp]).2 = ⟨1⟩) :=
  ⟨⟨by decide, shared_ops_monotone.1 Nat ⟨[(1, 5, 1)], 2⟩ ⟨1⟩
      [ArcOp.getOp, ArcOp.storeOp 2, ArcOp.storeValueOp 9, ArcOp.cloneOp,
       ArcOp.asRefOp, ArcOp.isNoneOp, ArcOp.isSomeOp] (by decide)⟩,
   ⟨by decide, shared_ops_monotone.2 Nat ⟨[(1, 5)], 2⟩ ⟨1⟩
      [BoxOp.storeOp 2, BoxOp.storeValueOp 9, BoxOp.asRefOp,
       BoxOp.isNoneOp, BoxOp.isSomeOp] (by decide)⟩⟩

/-- C4: destroying a cell is `take()` followed by discarding the result;
dropping a populated cell releases its value exactly once — a `MonoBox`
frees its allocation, a `MonoArc` decrements the strong count once,
deallocating exactly when the count was 1 — and dropping an empty cell
releases nothing, the rest of the heap being untouched either way. -/
theorem dropCell_spec :
    (∀ (T : Type) (h : BoxHeap T) (c : MonoBox),
      MonoBox.dropCell h c = dropOptBox h (c.take).1
      ∧ (c.ptr_or_null = 0 → MonoBox.dropCell h c = h)
      ∧ (∀ v : T, h.wf → c.ptr_or_null ≠ 0 →
          h.lookup c.ptr_or_null = some v →
          (MonoBox.dropCell h c).lookup c.ptr_or_null = none
          ∧ (MonoBox.dropCell h c).cells.length + 1 = h.cells.length
          ∧ ∀ b, b ≠ c.ptr_or_null →
              (MonoBox.dropCell h c).lookup b = h.lookup b))
    ∧ (∀ (T : Type) (h : ArcHeap T) (c : MonoArc),
      MonoArc.dropCell h c = dropOptArc h (c.take).1
      ∧ (c.ptr_or_null = 0 → MonoArc.dropCell h c = h)
      ∧ (∀ (v : T) (k : Nat), h.wf → c.ptr_or_null ≠ 0 →
          h.lookup c.ptr_or_null = some (v, k) →
          (k = 1 →
            (MonoArc.dropCell h c).lookup c.ptr_or_null = none
            ∧ (MonoArc.dropCell h c).cells.length + 1 = h.cells.length)
          ∧ (2 ≤ k →
            (MonoArc.dropCell h c).lookup c.ptr_or_null = some (v, k - 1)
            ∧ (MonoArc.dropCell h c).cells.length = h.cells.length)
          ∧ ∀ b, b ≠ c.ptr_or_null →
              (MonoArc.dropCell h c).lookup b = h.lookup b)) := by
  constructor
  · intro T h c
    refine ⟨rfl, ?_, ?_⟩
    · intro hp
      simp [MonoBox.dropCell, MonoBox.take, MonoBox.swap, dropOptBox, hp]
    · intro v hwf hp hv
      have hd : MonoBox.dropCell h c = h.free c.ptr_or_null := by
        simp [MonoBox.dropCell, MonoBox.take, MonoBox.swap, dropOptBox, hp]
      rw [hd]
      exact ⟨lookupCells_freeCells_self h.cells c.ptr_or_null hwf.2.2 v hv,
        freeCells_length h.cells c.ptr_or_null v hv,
        fun b hb => lookupCells_freeCells_ne h.cells c.ptr_or_null b hb⟩
  · intro T h c
    refine ⟨rfl, ?_, ?_⟩
    · intro hp
      simp [MonoArc.dropCell, MonoArc.take, MonoArc.swap, dropOptArc, hp]
    · intro v k hwf hp hv
      have hd : MonoArc.dropCell h c = h.decr c.ptr_or_null := by
        simp [MonoArc.dropCell, MonoArc.take, MonoArc.swap, dropOptArc, hp]
      rw [hd]
      refine ⟨?_, ?_, fun b hb =>
        lookupCells_decrCells_ne h.cells c.ptr_or_null b hb⟩
      · intro hk
        rw [hk] at hv
        exact ⟨lookupCells_decrCells_one h.cells c.ptr_or_null hwf.2.2 v hv,
          decrCells_length_one h.cells c.ptr_or_null v hv⟩
      · intro hk
        exact ⟨lookupCells_decrCells_ge2 h.cells c.ptr_or_null v k hk hv,
          decrCells_length_ge2 h.cells c.ptr_or_null v k hk hv⟩

/-- Witness for C4: dropping a populated `MonoBox` frees its allocation;
dropping a `MonoArc` whose value has strong count 2 decrements it to 1. -/
theorem dropCell_spec_witness :
    ((⟨[(1, 5)], 2⟩ : BoxHeap Nat).wf ∧ (MonoBox.mk 1).ptr_or_null ≠ 0
      ∧ (⟨[(1, 5)], 2⟩ : BoxHeap Nat).lookup 1 = some 5
      ∧ (MonoBox.dropCell (⟨[(1, 5)], 2⟩ : BoxHeap Nat) ⟨1⟩).lookup 1 = none
      ∧ (MonoBox.dropCell (⟨[(1, 5)], 2⟩ : BoxHeap Nat) ⟨1⟩).cells.length + 1
          = (⟨[(1, 5)], 2⟩ : BoxHeap Nat).cells.length)
    ∧ ((⟨[(1, 5, 2)], 2⟩ : ArcHeap Nat).wf ∧ (MonoArc.mk 1).ptr_or_null ≠ 0
      ∧ (⟨[(1, 5, 2)], 2⟩ : ArcHeap Nat).lookup 1 = some (5, 2)
      ∧ (2 : Nat) ≤ 2
      ∧ (MonoArc.dropCell (⟨[(1, 5, 2)], 2⟩ : ArcHeap Nat) ⟨1⟩).lookup 1
          = some (5, 1)) :=
  ⟨⟨by constructor <;> simp [heapKeysOk, keysDistinct], by decide, by decide,
    ((dropCell_spec.1 Nat ⟨[(1, 5)], 2⟩ ⟨1⟩).2.2 5
      (by constructor <;> simp [heapKeysOk, keysDistinct]) (by decide)
      (by decide)).1,
    ((dropCell_spec.1 Nat ⟨[(1, 5)], 2⟩ ⟨1⟩).2.2 5
      (by constructor <;> simp [heapKeysOk, keysDistinct]) (by decide)
      (by decide)).2.1⟩,
   ⟨by constructor <;> simp [heapKeysOk, keysDistinct], by decide, by decide,
    by decide,
    (((dropCell_spec.2 Nat ⟨[(1, 5, 2)], 2⟩ ⟨1⟩).2.2 5 2
      (by constructor <;> simp [heapKeysOk, keysDistinct]) (by decide)
      (by decide)).2.1 (by decide)).1⟩⟩

/-- C6: `get()` on an empty `MonoArc` returns `None` and changes nothing;
on a cell holding `v` it returns `Some` of a new owned handle to the very
same allocation, increments the strong count by one, touches no other
allocation, and leaves the slot unchanged; two successive `get()` calls
yield two handles to the same value with the count up by two, and dropping
one of them leaves the value alive for the other. -/
theorem get_spec :
    ∀ (T : Type) (h : ArcHeap T) (c : MonoArc),
      (c.ptr_or_null = 0 → MonoArc.get h c = (none, h))
      ∧ (∀ (v : T) (k : Nat), c.ptr_or_null ≠ 0 →
          h.lookup c.ptr_or_null = some (v, k) →
          (MonoArc.get h c).1 = some c.ptr_or_null
          ∧ (MonoArc.get h c).2.lookup c.ptr_or_null = some (v, k + 1)
          ∧ (∀ b, b ≠ c.ptr_or_null →
              (MonoArc.get h c).2.lookup b = h.lookup b)
          ∧ (MonoArc.get (MonoArc.get h c).2 c).1 = some c.ptr_or_null
          ∧ (MonoArc.get (MonoArc.get h c).2 c).2.lookup c.ptr_or_null
              = some (v, k + 2)
          ∧ ((MonoArc.get (MonoArc.get h c).2 c).2.decr
              c.ptr_or_null).lookup c.ptr_or_null = some (v, k + 1)) := by
  intro T h c
  constructor
  · intro hp
    simp [MonoArc.get, hp]
  · intro v k hp hv
    have hg : MonoArc.get h c = (some c.ptr_or_null, h.incr c.ptr_or_null) := by
      simp [MonoArc.get, hp]
    have h1 : (h.incr c.ptr_or_null).lookup c.ptr_or_null = some (v, k + 1) := by
      show lookupCells (incrCells h.cells c.ptr_or_null) c.ptr_or_null = _
      rw [lookupCells_incrCells_self]
      show Option.map _ (h.lookup c.ptr_or_null) = _
      rw [hv]
      rfl
    have hg2 : MonoArc.get (h.incr c.ptr_or_null) c
        = (some c.ptr_or_null, (h.incr c.ptr_or_null).incr c.ptr_or_null) := by
      simp [MonoArc.get, hp]
    have h2 : ((h.incr c.ptr_or_null).incr c.ptr_or_null).lookup c.ptr_or_null
        = some (v, k + 2) := by
      show lookupCells (incrCells _ c.ptr_or_null) c.ptr_or_null = _
      rw [lookupCells_incrCells_self]
      show Option.map _ ((h.incr c.ptr_or_null).lookup c.ptr_or_null) = _
      rw [h1]
      rfl
    refine ⟨by rw [hg], by rw [hg]; exact h1, ?_, ?_, ?_, ?_⟩
    · intro b hb
      rw [hg]
      exact lookupCells_incrCells_ne h.cells c.ptr_or_null b hb
    · rw [hg, hg2]
    · rw [hg, hg2]
      exact h2
    · rw [hg, hg2]
      have := lookupCells_decrCells_ge2
        ((h.incr c.ptr_or_null).incr c.ptr_or_null).cells c.ptr_or_null v
        (k + 2) (by omega) h2
      simpa using this

/-- Witness for C6: `get()` twice on a `MonoArc` holding `5` with count 1,
then dropping one handle. -/
theorem get_spec_witness :
    ((MonoArc.mk 1).ptr_or_null ≠ 0
      ∧ (⟨[(1, 5, 1)], 2⟩ : ArcHeap Nat).lookup 1 = some (5, 1)
      ∧ (MonoArc.get (⟨[(1, 5, 1)], 2⟩ : ArcHeap Nat) ⟨1⟩).1 = some 1
      ∧ (MonoArc.get (⟨[(1, 5, 1)], 2⟩ : ArcHeap Nat) ⟨1⟩).2.lookup 1
          = some (5, 2)
      ∧ (MonoArc.get (MonoArc.get (⟨[(1, 5, 1)], 2⟩ : ArcHeap Nat) ⟨1⟩).2
          ⟨1⟩).2.lookup 1 = some (5, 3)
      ∧ ((MonoArc.get (MonoArc.get (⟨[(1, 5, 1)], 2⟩ : ArcHeap Nat) ⟨1⟩).2
          ⟨1⟩).2.decr 1).lookup 1 = some (5, 2)) :=
  ⟨by decide, by decide,
   ((get_spec Nat ⟨[(1, 5, 1)], 2⟩ ⟨1⟩).2 5 1 (by decide) (by decide)).1,
   ((get_spec Nat ⟨[(1, 5, 1)], 2⟩ ⟨1⟩).2 5 1 (by decide) (by decide)).2.1,
   ((get_spec Nat ⟨[(1, 5, 1)], 2⟩ ⟨1⟩).2 5 1 (by decide) (by decide)).2.2.2.2.1,
   ((get_spec Nat ⟨[(1, 5, 1)], 2⟩ ⟨1⟩).2 5 1 (by decide) (by decide)).2.2.2.2.2⟩

/-- C7: `clone()` on a `MonoArc` yields a new cell whose slot holds the
same address as the source (populated iff the source was), increments the
strong count exactly when the slot was non-null, and leaves the source
cell, its value and every other allocation unchanged. -/
theorem clone_spec :
    ∀ (T : Type) (h : ArcHeap T) (c : MonoArc),
      (MonoArc.clone h c).1.ptr_or_null = c.ptr_or_null
      ∧ ((MonoArc.clone h c).1.asOption = none ↔ c.asOption = none)
      ∧ (c.ptr_or_null = 0 → (MonoArc.clone h c).2 = h)
      ∧ (∀ (v : T) (k : Nat), c.ptr_or_null ≠ 0 →
          h.lookup c.ptr_or_null = some (v, k) →
          (MonoArc.clone h c).2.lookup c.ptr_or_null = some (v, k + 1)
          ∧ ∀ b, b ≠ c.ptr_or_null →
              (MonoArc.clone h c).2.lookup b = h.lookup b) := by
  intro T h c
  by_cases hp : c.ptr_or_null = 0
  · refine ⟨by simp [MonoArc.clone, hp],
      by simp [MonoArc.clone, MonoArc.asOption, hp],
      fun _ => by simp [MonoArc.clone, hp], fun v k hc _ => absurd hp hc⟩
  · refine ⟨by simp [MonoArc.clone, hp],
      by simp [MonoArc.clone, MonoArc.asOption, hp],
      fun h0 => absurd h0 hp, ?_⟩
    intro v k _ hv
    have hcl : (MonoArc.clone h c).2 = h.incr c.ptr_or_null := by
      simp [MonoArc.clone, hp]
    rw [hcl]
    constructor
    · show lookupCells (incrCells h.cells c.ptr_or_null) c.ptr_or_null = _
      rw [lookupCells_incrCells_self]
      show Option.map _ (h.lookup c.ptr_or_null) = _
      rw [hv]
      rfl
    · intro b hb
      exact lookupCells_incrCells_ne h.cells c.ptr_or_null b hb

/-- Witness for C7: cloning a populated `MonoArc` increments its value's
strong count from 1 to 2 and copies the address. -/
theorem clone_spec_witness :
    ((MonoArc.clone (⟨[(1, 5, 1)], 2⟩ : ArcHeap Nat) ⟨1⟩).1.ptr_or_null
        = (MonoArc.mk 1).ptr_or_null
      ∧ (MonoArc.mk 1).ptr_or_null ≠ 0
      ∧ (⟨[(1, 5, 1)], 2⟩ : ArcHeap Nat).lookup 1 = some (5, 1)
      ∧ (MonoArc.clone (⟨[(1, 5, 1)], 2⟩ : ArcHeap Nat) ⟨1⟩).2.lookup 1
          = some (5, 2)) :=
  ⟨(clone_spec Nat ⟨[(1, 5, 1)], 2⟩ ⟨1⟩).1, by decide, by decide,
   ((clone_spec Nat ⟨[(1, 5, 1)], 2⟩ ⟨1⟩).2.2.2 5 1 (by decide) (by decide)).1⟩

/-- C8: converting a `MonoBox` into a `MonoArc` consumes the box; the
resulting cell is empty when the box was empty, and otherwise is populated
with the same value re-wrapped as a fresh reference-counted allocation with
strong count 1, the box's own allocation being discarded. -/
theorem fromMonoBox_spec :
    ∀ (T : Type) (hb : BoxHeap T) (ha : ArcHeap T) (c : MonoBox),
      (c.ptr_or_null = 0 →
        MonoArc.fromMonoBox hb ha c = some (MonoArc.empty, hb, ha))
      ∧ (∀ v : T, hb.wf → ha.wf → c.ptr_or_null ≠ 0 →
          hb.lookup c.ptr_or_null = some v →
          MonoArc.fromMonoBox hb ha c
            = some (MonoArc.new (some ha.next), hb.free c.ptr_or_null,
                (ha.alloc v).2)
          ∧ (MonoArc.new (some ha.next)).asOption = some ha.next
          ∧ (ha.alloc v).2.lookup ha.next = some (v, 1)
          ∧ ha.lookup ha.next = none
          ∧ (hb.free c.ptr_or_null).lookup c.ptr_or_null = none) := by
  intro T hb ha c
  constructor
  · intro hp
    simp [MonoArc.fromMonoBox, MonoBox.into_inner, MonoBox.take, MonoBox.swap,
      MonoArc.empty, hp]
  · intro v hwb hwa hp hv
    have hi : c.into_inner = some c.ptr_or_null := by
      simp [MonoBox.into_inner, MonoBox.take, MonoBox.swap, hp]
    have hne : ha.next ≠ 0 := Nat.pos_iff_ne_zero.mp hwa.1
    refine ⟨?_, by simp [MonoArc.new, MonoArc.asOption, hne], ?_, ?_, ?_⟩
    · simp [MonoArc.fromMonoBox, hi, boxIntoArc, hv, ArcHeap.alloc]
    · simp [ArcHeap.alloc, ArcHeap.lookup, lookupCells]
    · exact lookupCells_fresh ha.cells ha.next fun e he => (hwa.2.1 e he).2
    · exact lookupCells_freeCells_self hb.cells c.ptr_or_null hwb.2.2 v hv

/-- Witness for C8: converting a `MonoBox` holding `5` (and an empty one)
into a `MonoArc`. -/
theorem fromMonoBox_spec_witness :
    ((⟨[(1, 5)], 2⟩ : BoxHeap Nat).wf ∧ (⟨[], 1⟩ : ArcHeap Nat).wf
      ∧ (MonoBox.mk 1).ptr_or_null ≠ 0
      ∧ (⟨[(1, 5)], 2⟩ : BoxHeap Nat).lookup 1 = some 5
      ∧ MonoArc.fromMonoBox (⟨[(1, 5)], 2⟩ : BoxHeap Nat)
          (⟨[], 1⟩ : ArcHeap Nat) ⟨1⟩
          = some (MonoArc.new (some 1), (⟨[(1, 5)], 2⟩ : BoxHeap Nat).free 1,
              ((⟨[], 1⟩ : ArcHeap Nat).alloc 5).2))
    ∧ ((MonoBox.mk 0).ptr_or_null = 0
      ∧ MonoArc.fromMonoBox (⟨[], 1⟩ : BoxHeap Nat) (⟨[], 1⟩ : ArcHeap Nat) ⟨0⟩
          = some (MonoArc.empty, ⟨[], 1⟩, ⟨[], 1⟩)) :=
  ⟨⟨by constructor <;> simp [heapKeysOk, keysDistinct],
    by constructor <;> simp [heapKeysOk, keysDistinct], by decide, by decide,
    ((fromMonoBox_spec Nat ⟨[(1, 5)], 2⟩ ⟨[], 1⟩ ⟨1⟩).2 5
      (by constructor <;> simp [heapKeysOk, keysDistinct])
      (by constructor <;> simp [heapKeysOk, keysDistinct])
      (by decide) (by decide)).1⟩,
   ⟨by decide, (fromMonoBox_spec Nat ⟨[], 1⟩ ⟨[], 1⟩ ⟨0⟩).1 (by decide)⟩⟩

/-- C10: `store_value(v)` wraps `v` in a fresh heap allocation and returns
true iff the cell was empty; when the cell was already populated it returns
false, leaves the cell and heap contents as they were, and the rejected
value `v` is destroyed (its freshly made allocation is released) rather
than returned to the caller. -/
theorem store_value_spec :
    (∀ (T : Type) (h : BoxHeap T) (c : MonoBox) (v : T), h.wf →
      ((MonoBox.store_value h c v).1 = true ↔ c.asOption = none)
      ∧ (c.ptr_or_null = 0 →
          (MonoBox.store_value h c v).2.1 = ⟨h.next⟩
          ∧ h.lookup h.next = none
          ∧ (MonoBox.store_value h c v).2.2.lookup h.next = some v
          ∧ (MonoBox.store_value h c v).2.2.cells = (h.next, v) :: h.cells)
      ∧ (c.ptr_or_null ≠ 0 →
          (MonoBox.store_value h c v).1 = false
          ∧ (MonoBox.store_value h c v).2.1 = c
          ∧ (MonoBox.store_value h c v).2.2.cells = h.cells
          ∧ (MonoBox.store_value h c v).2.2.lookup h.next = none))
    ∧ (∀ (T : Type) (h : ArcHeap T) (c : MonoArc) (v : T), h.wf →
      ((MonoArc.store_value h c v).1 = true ↔ c.asOption = none)
      ∧ (c.ptr_or_null = 0 →
          (MonoArc.store_value h c v).2.1 = ⟨h.next⟩
          ∧ h.lookup h.next = none
          ∧ (MonoArc.store_value h c v).2.2.lookup h.next = some (v, 1)
          ∧ (MonoArc.store_value h c v).2.2.cells = (h.next, v, 1) :: h.cells)
      ∧ (c.ptr_or_null ≠ 0 →
          (MonoArc.store_value h c v).1 = false
          ∧ (MonoArc.store_value h c v).2.1 = c
          ∧ (MonoArc.store_value h c v).2.2.cells = h.cells
          ∧ (MonoArc.store_value h c v).2.2.lookup h.next = none)) := by
  constructor
  · intro T h c v hwf
    have hfresh : h.lookup h.next = none :=
      lookupCells_fresh h.cells h.next fun e he => (hwf.2.1 e he).2
    by_cases hp : c.ptr_or_null = 0
    · refine ⟨by simp [MonoBox.store_value, MonoBox.store, MonoBox.asOption,
        BoxHeap.alloc, hp], fun _ => ⟨?_, hfresh, ?_, ?_⟩,
        fun hno => absurd hp hno⟩
      · simp [MonoBox.store_value, MonoBox.store, BoxHeap.alloc, hp]
      · simp [MonoBox.store_value, MonoBox.store, BoxHeap.alloc,
          BoxHeap.lookup, lookupCells, hp]
      · simp [MonoBox.store_value, MonoBox.store, BoxHeap.alloc, hp]
    · have hred :
          MonoBox.store_value h c v
            = (false, c, ⟨h.cells, h.next + 1⟩) := by
        simp [MonoBox.store_value, MonoBox.store, BoxHeap.alloc, BoxHeap.free,
          freeCells, hp]
      refine ⟨by rw [hred]; simp [MonoBox.asOption, hp],
        fun h0 => absurd h0 hp, fun _ => ?_⟩
      rw [hred]
      exact ⟨rfl, rfl, rfl, hfresh⟩
  · intro T h c v hwf
    have hfresh : h.lookup h.next = none :=
      lookupCells_fresh h.cells h.next fun e he => (hwf.2.1 e he).2
    by_cases hp : c.ptr_or_null = 0
    · refine ⟨by simp [MonoArc.store_value, MonoArc.store, MonoArc.asOption,
        ArcHeap.alloc, hp], fun _ => ⟨?_, hfresh, ?_, ?_⟩,
        fun hno => absurd hp hno⟩
      · simp [MonoArc.store_value, MonoArc.store, ArcHeap.alloc, hp]
      · simp [MonoArc.store_value, MonoArc.store, ArcHeap.alloc,
          ArcHeap.lookup, lookupCells, hp]
      · simp [MonoArc.store_value, MonoArc.store, ArcHeap.alloc, hp]
    · have hred :
          MonoArc.store_value h c v
            = (false, c, ⟨h.cells, h.next + 1⟩) := by
        simp [MonoArc.store_value, MonoArc.store, ArcHeap.alloc, ArcHeap.decr,
          decrCells, hp]
      refine ⟨by rw [hred]; simp [MonoArc.asOption, hp],
        fun h0 => absurd h0 hp, fun _ => ?_⟩
      rw [hred]
      exact ⟨rfl, rfl, rfl, hfresh⟩

/-- Witness for C10: `store_value` on an empty and on a populated `MonoBox`
and `MonoArc`. -/
theorem store_value_spec_witness :
    ((⟨[], 1⟩ : BoxHeap Nat).wf
      ∧ (MonoBox.store_value (⟨[], 1⟩ : BoxHeap Nat) ⟨0⟩ 5).1 = true
      ∧ (MonoBox.store_value (⟨[], 1⟩ : BoxHeap Nat) ⟨0⟩ 5).2.2.lookup 1
          = some 5)
    ∧ ((⟨[(1, 5)], 2⟩ : BoxHeap Nat).wf ∧ (MonoBox.mk 1).ptr_or_null ≠ 0
      ∧ (MonoBox.store_value (⟨[(1, 5)], 2⟩ : BoxHeap Nat) ⟨1⟩ 9).1 = false
      ∧ (MonoBox.store_value (⟨[(1, 5)], 2⟩ : BoxHeap Nat) ⟨1⟩ 9).2.2.cells
          = [(1, 5)])
    ∧ ((⟨[(1, 5, 1)], 2⟩ : ArcHeap Nat).wf ∧ (MonoArc.mk 1).ptr_or_null ≠ 0
      ∧ (MonoArc.store_value (⟨[(1, 5, 1)], 2⟩ : ArcHeap Nat) ⟨1⟩ 9).1 = false
      ∧ (MonoArc.store_value (⟨[(1, 5, 1)], 2⟩ : ArcHeap Nat) ⟨1⟩ 9).2.2.cells
          = [(1, 5, 1)]) :=
  ⟨⟨by constructor <;> simp [heapKeysOk, keysDistinct],
    ((store_value_spec.1 Nat ⟨[], 1⟩ ⟨0⟩ 5
      (by constructor <;> simp [heapKeysOk, keysDistinct])).1).mpr (by decide),
    ((store_value_spec.1 Nat ⟨[], 1⟩ ⟨0⟩ 5
      (by constructor <;> simp [heapKeysOk, keysDistinct])).2.1
      (by decide)).2.2.1⟩,
   ⟨by constructor <;> simp [heapKeysOk, keysDistinct], by decide,
    ((store_value_spec.1 Nat ⟨[(1, 5)], 2⟩ ⟨1⟩ 9
      (by constructor <;> simp [heapKeysOk, keysDistinct])).2.2
      (by decide)).1,
    ((store_value_spec.1 Nat ⟨[(1, 5)], 2⟩ ⟨1⟩ 9
      (by constructor <;> simp [heapKeysOk, keysDistinct])).2.2
      (by decide)).2.2.1⟩,
   ⟨by constructor <;> simp [heapKeysOk, keysDistinct], by decide,
    ((store_value_spec.2 Nat ⟨[(1, 5, 1)], 2⟩ ⟨1⟩ 9
      (by constructor <;> simp [heapKeysOk, keysDistinct])).2.2
      (by decide)).1,
    ((store_value_spec.2 Nat ⟨[(1, 5, 1)], 2⟩ ⟨1⟩ 9
      (by constructor <;> simp [heapKeysOk, keysDistinct])).2.2
      (by decide)).2.2.1⟩⟩

/-- C9 counterexample: `swap` performs two atomic accesses to the slot —
an acquire load followed by a release store — and `take`, `into_inner` and
`drop` delegate to it, so the bound "at most one atomic
read/write/compare-and-swap" fails for these operations. -/
theorem swap_two_atomic_accesses :
    swapAtomics.length = 2 ∧ ¬ swapAtomics.length ≤ 1
    ∧ takeAtomics = swapAtomics
    ∧ into_innerAtomics = swapAtomics
    ∧ dropAtomics = swapAtomics := by
  decide

/-- C9 (amended): every operation of both cells is a bounded straight-line
sequence of slot accesses — at most two: exactly one CAS for `store` and
`store_value`, exactly one load for `is_none`/`is_some`/`as_ref`/`as_mut`/
`get`/`clone`, none for `new`, and one load plus one store for
`swap`/`take`/`into_inner`/`drop` — plus O(1) bookkeeping; no operation
loops, retries internally, or waits. -/
theorem ops_atomics_bounded :
    newAtomics.length = 0
    ∧ is_noneAtomics.length = 1
    ∧ is_someAtomics.length = 1
    ∧ storeAtomics = [AtomicAccess.casOp MemOrder.release MemOrder.relaxed]
    ∧ store_valueAtomics = storeAtomics
    ∧ as_refAtomics.length = 1
    ∧ as_mutAtomics.length = 1
    ∧ getAtomics.length = 1
    ∧ cloneAtomics.length = 1
    ∧ swapAtomics
        = [AtomicAccess.loadOp MemOrder.acquire,
           AtomicAccess.storeOp MemOrder.release]
    ∧ takeAtomics.length = 2
    ∧ into_innerAtomics.length = 2
    ∧ dropAtomics.length = 2
    ∧ newAtomics.length ≤ 2 ∧ is_noneAtomics.length ≤ 2
    ∧ is_someAtomics.length ≤ 2 ∧ storeAtomics.length ≤ 2
    ∧ store_valueAtomics.length ≤ 2 ∧ as_refAtomics.length ≤ 2
    ∧ as_mutAtomics.length ≤ 2 ∧ getAtomics.length ≤ 2
    ∧ cloneAtomics.length ≤ 2 ∧ swapAtomics.length ≤ 2
    ∧ takeAtomics.length ≤ 2 ∧ into_innerAtomics.length ≤ 2
    ∧ dropAtomics.length ≤ 2 := by
  decide

end Quinine
